import Mathlib

/-!
# Verification of the sqlEZ metadata-driven query engine

A shallow embedding of the sqlEZ repository (Go) in Lean 4 and proofs about it.
The repository contains two implementations of the library:

* the interface-based `DBObject` scheme (`DBObjectAddOn.Init`, `validateMetadata`,
  `GetExisting`, `SaveNew`, `SaveExisting`, `populate`, the `MySQLDriver` query
  generators) — embedded below with the same names;
* the older annotation-only scheme (`scanStruct` in `sqlez.go`) — its label
  collection and recursive struct flattening is embedded as `scanLabels*`.

Conventions of the embedding:
* Go `reflect.Type` values are modelled by `RType`; the distinguished constructor
  `RType.reflectValueT` denotes the type `reflect.Value` itself (the struct type
  of the `reflect` package, of kind `struct`).
* `time.Time` values are modelled by their Unix-seconds payload (`GoValue.time`);
  `time.Unix(v, 0).Unix() = v`, and the code only ever converts through Unix
  seconds, so no other component of a Go time value is observable here.
* Go errors are created with `fmt.Errorf`; each distinct error message in the
  source is modelled by one constructor of `Err` (payloads keep the interpolated
  parts that vary).
* Struct field slots are untyped `GoValue`s; Go's `reflect` setters panic when
  the metadata's notion of a field type disagrees with the actual field, which
  cannot happen when the metadata was built from the record's own type.
* `database/sql` execution is out of scope (an external collaborator): a query's
  result set is passed in as a list of rows, each row a list of `SQLValue`s as
  `rows.Scan` would deliver them; `json.Unmarshal` is passed in as a decoding
  function `jdec`; `json.Marshal` is modelled as total (it cannot fail on the
  value shapes representable here).
-/

set_option linter.unusedVariables false

deriving instance DecidableEq for Except

namespace Sqlez

/-- Go reflect types, as far as the code inspects them (`Kind()` and equality
with `reflect.TypeOf(time.Time{})`). `reflectValueT` is the type
`reflect.Value` itself: `reflect.TypeOf(x)` applied to a variable `x` that is
already a `reflect.Value` returns this type, whatever `x` wraps. -/
inductive RType where
  | stringT
  | intT
  | floatT
  | boolT
  | timeT
  | structT (name : String)
  | ptrT (elem : RType)
  | mapT
  | reflectValueT
deriving DecidableEq, Repr

/-- Go reflect kinds distinguished by the code. -/
inductive RKind where
  | stringK | intK | floatK | boolK | structK | ptrK | mapK
deriving DecidableEq, Repr

/-- Go `reflect.Type.Kind()`. `time.Time` and `reflect.Value` are struct types. -/
def RType.kind : RType → RKind
  | .stringT => .stringK
  | .intT => .intK
  | .floatT => .floatK
  | .boolT => .boolK
  | .timeT => .structK
  | .structT _ => .structK
  | .ptrT _ => .ptrK
  | .mapT => .mapK
  | .reflectValueT => .structK

/-- The `GoType` enumeration of `sqlez.go` (`iota`, so the zero value is
`GoString`). -/
inductive GoType where
  | GoString | GoInt | GoFloat | GoBool | GoTime | GoStruct
deriving DecidableEq, Repr

/-- Runtime values of record fields. `time` carries Unix seconds; `float`
carries an opaque payload (no claim computes with floats); `nilV` is the nil
`interface{}` (the zero value of `whereval` in `MySQLDriver.Update`). -/
inductive GoValue where
  | str (s : String)
  | int (i : Int)
  | float (bits : Nat)
  | bool (b : Bool)
  | time (unix : Int)
  | nilV
deriving DecidableEq, Repr

/-- Raw values produced by `rows.Scan` into `*interface{}` targets: the
`database/sql` driver delivers `int64`, `float64`, `bool`, `string`, `[]byte`
or `nil`. Byte slices are modelled as strings. -/
inductive SQLValue where
  | int (i : Int)
  | float (bits : Nat)
  | bool (b : Bool)
  | str (s : String)
  | bytes (s : String)
  | null
deriving DecidableEq, Repr

/-- One constructor per distinct `fmt.Errorf` message in the embedded code.
`fault` stands for a Go runtime panic raised inside code whose result is
modelled as an `Except` (out-of-range slice index). -/
inductive Err where
  | foreignNotPtr        -- "foreign key must be a pointer to a struct"
  | foreignNotDefined    -- "foreign table not yet defined"
  | createdNotTime       -- "created field must be a time struct"
  | updatedNotTime       -- "updated field must be a time struct"
  | unsupportedType      -- "unsupported type %s" (typ.Kind(), always "struct")
  | notInitialized       -- "database object not initialized"
  | noTableName          -- "table name not specified"
  | noPrimaryKey         -- "no primary key specified"
  | fkeyEqPkey           -- "foreign key cannot be the same as primary key"
  | noRowsMatching       -- "no rows returned matching criteria" (GetExisting)
  | noRows               -- "no rows returned" (Refresh)
  | scanError            -- rows.Scan failure (arity mismatch is modelled)
  | jsonUnmarshal (s : String) -- "error unmarshalling column flagged as json: %s"
  | parseTime (s : String)     -- "error parsing time: %s" (s: offending input)
  | invalidTimeType      -- "invalid time type"
  | structNotJson        -- "structs must be marked as json or ignored"
  | fault
deriving DecidableEq, Repr

/-- The `sqlez.DBColumn` struct. Field defaults are the Go zero values (`Init` allocates
the struct with only `label` set). `defV` is the Go field `def` (a Lean
keyword). -/
structure DBColumn where
  label : String := ""
  field : Nat := 0
  sqlType : String := ""
  goType : GoType := .GoString
  primary : Bool := false
  foreignTable : String := ""
  foreignKey : String := ""
  unique : Bool := false
  autoinc : Bool := false
  created : Bool := false
  updated : Bool := false
  defV : String := ""
  json : Bool := false
  colProp : String := ""
deriving DecidableEq, Repr

/-- The `sqlez.DBObjectMetadata` struct. `pkey`, `fkey`, `created`, `updated` are Go
`int`s initialised to `-1` by `Init`. -/
structure DBObjectMetadata where
  table : String := ""
  pkey : Int := -1
  fkey : Int := -1
  created : Int := -1
  updated : Int := -1
  refreshOrderBy : String := ""
  cols : List DBColumn := []
  validated : Bool := false
deriving DecidableEq, Repr

/-- The `sqlez.Params` struct of the interface-based scheme (`Where`, `OrderBy`,
`Limit`; no `SkipEmpty`/`OrIgnore` — those exist only in the legacy scheme's
`Params`). -/
structure Params where
  Where : String := ""
  OrderBy : String := ""
  Limit : Int := 0
deriving DecidableEq, Repr

/-- One field of a record struct: its `db` tag (`""` = absent, `Init` skips
the field) and its reflect type. -/
structure GoField where
  tag : String
  ftype : RType
deriving DecidableEq, Repr

/-- A record struct type: name and ordered fields. -/
structure GoStructType where
  name : String
  fields : List GoField
deriving DecidableEq, Repr

/-- The `db.objects` map (`map[reflect.Type]DBObjectMetadata`), modelled as an
association list; assignment overwrites the entry of an existing key. -/
abbrev ObjMap := List (RType × DBObjectMetadata)

/-- Map lookup `db.objects[typ]`. -/
def lookupObj (m : ObjMap) (k : RType) : Option DBObjectMetadata :=
  match m with
  | [] => none
  | (k', v) :: rest => if k' = k then some v else lookupObj rest k

/-- Map assignment `db.objects[typ] = md`. -/
def insertObj (m : ObjMap) (k : RType) (v : DBObjectMetadata) : ObjMap :=
  match m with
  | [] => [(k, v)]
  | (k', v') :: rest =>
    if k' = k then (k', v) :: rest else (k', v') :: insertObj rest k v

/-- The part of the `DB` state that `Init` reads and writes. -/
structure DBState where
  objects : ObjMap
deriving DecidableEq, Repr

/-- Go `MySQLDriver.GetDataType` (mysql.go): SQL type from the field's reflect
type. `Int8`..`Int64` also map to `INT` in the source; those kinds are not
representable here because no other code path accepts them. -/
def GetDataType : RType → String
  | .stringT => "VARCHAR(255)"
  | .intT => "INT"
  | .boolT => "INT"
  | .floatT => "FLOAT"
  | .timeT => "DATETIME"
  | _ => "TEXT"

/-- Go `strings.Join`. -/
def stringsJoin : List String → String → String
  | [], _ => ""
  | [x], _ => x
  | x :: y :: rest, sep => x ++ sep ++ stringsJoin (y :: rest) sep

/-- Concatenation of `n` copies of `s`. -/
def repeatAux : Nat → String → String
  | 0, _ => ""
  | n + 1, s => s ++ repeatAux n s

/-- Go `strings.Repeat s n` for an `int` count: panics (`none`) when `n` is
negative. -/
def stringsRepeat (s : String) (n : Int) : Option String :=
  if n < 0 then none else some (repeatAux n.toNat s)

/-- Decimal digit run evaluation; `none` on a non-digit. -/
def digitsVal : List Char → Nat → Option Nat
  | [], acc => some acc
  | ch :: rest, acc =>
    if ch.isDigit then digitsVal rest (acc * 10 + (ch.toNat - '0'.toNat)) else none

/-- Go `strconv.ParseInt(s, 10, 64)`: optional sign, a non-empty digit run,
64-bit range check; `none` on any failure. -/
def parseIntGo (s : String) : Option Int :=
  let cs := s.toList
  let signed : Bool × List Char :=
    match cs with
    | '+' :: rest => (false, rest)
    | '-' :: rest => (true, rest)
    | _ => (false, cs)
  match signed.2 with
  | [] => none
  | _ =>
    match digitsVal signed.2 0 with
    | none => none
    | some n =>
      let v : Int := if signed.1 then -(n : Int) else (n : Int)
      if v < -(2 ^ 63) ∨ (2 ^ 63 - 1 : Int) < v then none else some v

/-- Number of `?` placeholders in a string. -/
def countQ (s : String) : Nat := s.toList.count '?'

/-!
## `DBObjectAddOn.Init` (the tag parser / schema builder)
-/

/-- Helper for `strings.Split`: split a character list at every separator. -/
def splitCharAux (sep : Char) : List Char → List Char → List (List Char)
  | [], acc => [acc.reverse]
  | c :: rest, acc =>
    if c = sep then acc.reverse :: splitCharAux sep rest []
    else splitCharAux sep rest (c :: acc)

/-- Go `strings.Split(s, sep)` for the single-character separators the code
uses (`,` and `:`): always at least one piece, empty pieces preserved. -/
def goSplit (s : String) (sep : Char) : List String :=
  (splitCharAux sep s.data []).map (fun l => ⟨l⟩)

/-- Field type at a metadata index (`val.Field(md.created).Type()`); the index
is always a field index previously stored by the loop, hence in range. -/
def fieldTypeAt (flds : List GoField) (n : Int) : RType :=
  (flds.getD n.toNat ⟨"", .stringT⟩).ftype

/-- One annotation token (`Init`'s `for _, v := range split[1:]` dispatch):
`key:value` tokens switch on the key — unrecognized keys fall through
silently; bare tokens switch on the flag name — unrecognized flags land in
`colProp`. `i` is the index of the field being parsed. -/
def dispatchToken (objects : ObjMap) (fld : GoField) (i : Nat) (v : String)
    (c : DBColumn) (md : DBObjectMetadata) : Except Err (DBColumn × DBObjectMetadata) :=
  let vv := goSplit v ':'
  if vv.length > 1 then
    let value := vv.getD 1 ""
    .ok (match vv.headD "" with
      | "default" => ({ c with defV := value }, md)
      | "table" => (c, if md.table = "" then { md with table := value } else md)
      | "type" => ({ c with sqlType := value }, md)
      | "refresh" => (c, { md with refreshOrderBy := value })
      | _ => (c, md))
  else
    if v = "primary" ∧ md.pkey < 0 then
      .ok ({ c with primary := true }, { md with pkey := (i : Int) })
    else if v = "foreign" ∧ md.fkey < 0 then
      -- must be a pointer to a struct; the referenced type is then looked up
      -- in `db.objects` under the pointer type itself
      match fld.ftype with
      | .ptrT e =>
        match lookupObj objects (.ptrT e) with
        | none => .error .foreignNotDefined
        | some t =>
          if h : 0 ≤ t.pkey ∧ t.pkey.toNat < t.cols.length then
            .ok ({ c with foreignTable := t.table,
                          foreignKey := (t.cols.get ⟨t.pkey.toNat, h.2⟩).label },
                 { md with fkey := (i : Int) })
          else .error .fault -- Go panics indexing t.cols[t.pkey]
      | _ => .error .foreignNotPtr
    else if v = "unique" then .ok ({ c with unique := true }, md)
    else if v = "json" then .ok ({ c with json := true }, md)
    else if v = "autoinc" then .ok ({ c with autoinc := true }, md)
    else if v = "created" then
      .ok ({ c with created := true }, { md with created := (i : Int) })
    else if v = "updated" then
      .ok ({ c with updated := true }, { md with updated := (i : Int) })
    else .ok ({ c with colProp := v }, md)

/-- The token loop of `Init`. After every token's dispatch the source also
(inside the same loop body) infers the SQL type if it is still empty, checks
the `created`/`updated` fields are `time.Time`, and recomputes the column's
`goType` from the field's kind — so none of this runs for an annotation with
no tokens after the column name. The `unsupportedType` error message
interpolates `typ.Kind()`. -/
def procTokens (objects : ObjMap) (flds : List GoField) (fld : GoField) (i : Nat) :
    List String → DBColumn → DBObjectMetadata → Except Err (DBColumn × DBObjectMetadata)
  | [], c, md => .ok (c, md)
  | v :: rest, c, md =>
    match dispatchToken objects fld i v c md with
    | .error e => .error e
    | .ok (c1, md1) =>
      let c2 := if c1.sqlType = "" then { c1 with sqlType := GetDataType fld.ftype } else c1
      if 0 ≤ md1.created ∧ fieldTypeAt flds md1.created ≠ RType.timeT then
        .error .createdNotTime
      else if 0 ≤ md1.updated ∧ fieldTypeAt flds md1.updated ≠ RType.timeT then
        .error .updatedNotTime
      else
        match fld.ftype.kind with
        | .structK =>
          procTokens objects flds fld i rest
            { c2 with goType := if fld.ftype = .timeT then .GoTime else .GoStruct } md1
        | .floatK => procTokens objects flds fld i rest { c2 with goType := .GoFloat } md1
        | .intK => procTokens objects flds fld i rest { c2 with goType := .GoInt } md1
        | .stringK => procTokens objects flds fld i rest { c2 with goType := .GoString } md1
        | .boolK => procTokens objects flds fld i rest { c2 with goType := .GoBool } md1
        | _ => .error .unsupportedType

/-- The field loop of `Init`: fields with an empty `db` tag are skipped; the
first comma-separated token becomes the column label, the rest go through the
token loop; the finished column records its field index and is appended. -/
def buildLoop (objects : ObjMap) (flds : List GoField) :
    Nat → List GoField → DBObjectMetadata → Except Err DBObjectMetadata
  | _, [], md => .ok md
  | i, f :: rest, md =>
    if f.tag = "" then buildLoop objects flds (i + 1) rest md
    else
      let split := goSplit f.tag ','
      match procTokens objects flds f i split.tail { label := split.headD "" } md with
      | .error e => .error e
      | .ok (c, md') =>
        buildLoop objects flds (i + 1) rest
          { md' with cols := md'.cols ++ [{ c with field := i }] }

/-- Schema construction for one record type (the else-branch of `Init`),
starting from `DBObjectMetadata{pkey: -1, fkey: -1, created: -1, updated: -1}`. -/
def buildMetadata (objects : ObjMap) (rec : GoStructType) : Except Err DBObjectMetadata :=
  buildLoop objects rec.fields 0 rec.fields
    { table := "", pkey := -1, fkey := -1, created := -1, updated := -1,
      refreshOrderBy := "", cols := [], validated := false }

/-- Go `DBObjectAddOn.Init`. The cache key is `typ := reflect.TypeOf(val)`, and
`val` at that point is itself a `reflect.Value` (not the wrapped record), so
`typ` is the struct type `reflect.Value` — the same key for every record
type. A cache hit binds the instance to the cached metadata; a miss builds the
metadata from the record's fields and stores it under that key. The
pointer-shape checks on the argument (`expected pointer`, `expected pointer to
struct`) are prior to everything modelled here and are elided. -/
def InitAddOn (db : DBState) (rec : GoStructType) : Except Err (DBState × DBObjectMetadata) :=
  let typ := RType.reflectValueT
  match lookupObj db.objects typ with
  | some t => .ok (db, t)
  | none =>
    match buildMetadata db.objects rec with
    | .error e => .error e
    | .ok md => .ok (⟨insertObj db.objects typ md⟩, md)

/-- Go `validateMetadata` (part_001): memoized schema validation. -/
def validateMetadata : Option DBObjectMetadata → Except Err DBObjectMetadata
  | none => .error .notInitialized
  | some md =>
    if md.validated then .ok md
    else if md.table = "" then .error .noTableName
    else if md.pkey < 0 then .error .noPrimaryKey
    else if md.fkey = md.pkey then .error .fkeyEqPkey
    else .ok { md with validated := true }

/-!
## The `MySQLDriver` query generators (mysql.go)
-/

/-- The Go type assertion `.(time.Time)` followed by `.Unix()`. On a non-time
value Go would panic; that is unreachable when the metadata's `GoTime` tag
came from the record's own `time.Time` field, and is collapsed to `0` here. -/
def unixOf : GoValue → Int
  | .time u => u
  | _ => 0

/-- Go `json.Marshal`, which cannot fail on the value shapes representable here;
no claim depends on the encoding itself, only on a string being produced. -/
def jsonMarshalGo : GoValue → String
  | .str s => "\x22" ++ s ++ "\x22"
  | .int i => toString i
  | .bool b => if b then "true" else "false"
  | .float _ => "0"
  | .time u => toString u
  | .nilV => "null"

/-- Go `MySQLDriver.Select`: filter, order and limit fragments are appended
verbatim when present. -/
def mysqlSelect (md : DBObjectMetadata) (params : Params) : String :=
  let w := if params.Where ≠ "" then " WHERE " ++ params.Where else ""
  let o := if params.OrderBy ≠ "" then " ORDER BY " ++ params.OrderBy else ""
  let l := if params.Limit > 0 then " LIMIT " ++ toString params.Limit else ""
  "SELECT * FROM " ++ md.table ++ w ++ o ++ l

/-- The column loop of `MySQLDriver.Update`. `i` is the index into
`data.meta.cols`, and the source addresses the record as `val.Field(i)` with
that same `i` (not `col.field`). The primary column sets the WHERE parts and
is skipped; `updated` columns are re-stamped with `time.Now()` (`now`) before
value extraction; time values are extracted as Unix seconds. Returns
(record, where, whereval, SET column labels, parameter values). -/
def updLoop (now : Int) :
    List DBColumn → Nat → List GoValue → String → GoValue → List String → List GoValue →
    List GoValue × String × GoValue × List String × List GoValue
  | [], _, rec, w, wv, cs, vs => (rec, w, wv, cs, vs)
  | c :: rest, i, rec, w, wv, cs, vs =>
    if c.primary then
      updLoop now rest (i + 1) rec c.label (rec.getD i .nilV) cs vs
    else
      let rec' := if c.updated then rec.set i (.time now) else rec
      let v := if c.goType = .GoTime then GoValue.int (unixOf (rec'.getD i .nilV))
               else rec'.getD i .nilV
      updLoop now rest (i + 1) rec' w wv (cs ++ [c.label]) (vs ++ [v])

/-- The finished loop state of `MySQLDriver.Update` on a schema, record and
clock: (record, where, whereval, SET column labels, parameter values). -/
def updResult (md : DBObjectMetadata) (rec : List GoValue) (now : Int) :
    List GoValue × String × GoValue × List String × List GoValue :=
  updLoop now md.cols 0 rec "" .nilV [] []

/-- Go `MySQLDriver.Update`: returns the (possibly re-stamped) record, the query
string and the parameter values (SET values then the primary-key value). -/
def mysqlUpdate (md : DBObjectMetadata) (rec : List GoValue) (now : Int) :
    List GoValue × String × List GoValue :=
  let r := updResult md rec now
  let (rec', w, wv, cs, vs) := r
  (rec', "UPDATE " ++ md.table ++ " SET " ++ (stringsJoin cs "= ?, " ++ "= ?") ++
         " WHERE " ++ w ++ " = ?", vs ++ [wv])

/-- The column loop of `MySQLDriver.InsertIgnore`. As in `updLoop`, the record
is addressed by the column-list index `i`. Primary columns are skipped
entirely; `created` and `updated` columns are stamped with `time.Now()`
(`now`); JSON columns contribute their marshalled text (a marshal failure —
impossible for the representable values — would fall through to the plain
branches); time values are extracted as Unix seconds. -/
def insLoop (now : Int) :
    List DBColumn → Nat → List GoValue → List String → List GoValue →
    List GoValue × List String × List GoValue
  | [], _, rec, cs, vs => (rec, cs, vs)
  | c :: rest, i, rec, cs, vs =>
    if c.primary then insLoop now rest (i + 1) rec cs vs
    else
      let rec1 := if c.created then rec.set i (.time now) else rec
      let rec2 := if c.updated then rec1.set i (.time now) else rec1
      let v := if c.json then GoValue.str (jsonMarshalGo (rec2.getD i .nilV))
               else if c.goType = .GoTime then GoValue.int (unixOf (rec2.getD i .nilV))
               else rec2.getD i .nilV
      insLoop now rest (i + 1) rec2 (cs ++ [c.label]) (vs ++ [v])

/-- The VALUES placeholder list of `InsertIgnore`:
`strings.Repeat("?, ", len(columns)-1) + "?"`. With zero columns the repeat
count is `-1` and `strings.Repeat` panics (`none`). -/
def insertPlaceholders (ncols : Nat) : Option String :=
  (stringsRepeat "?, " ((ncols : Int) - 1)).map (· ++ "?")

/-- Go `MySQLDriver.InsertIgnore`: returns the (stamped) record, the query and
the parameter values, or `none` for the negative-repeat panic. -/
def mysqlInsertIgnore (md : DBObjectMetadata) (rec : List GoValue)
    (ignore : Bool) (now : Int) : Option (String × List GoValue × List GoValue) :=
  let r := insLoop now md.cols 0 rec [] []
  let (rec', cs, vs) := r
  let ig := if ignore then " OR IGNORE" else ""
  match insertPlaceholders cs.length with
  | none => none
  | some ph =>
    some ("INSERT" ++ ig ++ " INTO " ++ md.table ++ " (" ++ stringsJoin cs ", " ++
          ") VALUES (" ++ ph ++ ")", vs, rec')

/-!
## `populate` (row materializer) and `GetExisting`
-/

/-- Result of `populate`: `crash` is a Go runtime panic (a failed type
assertion on a raw value), `ret` carries the record, the materialized-row
count `n`, and the error. -/
inductive PopResult where
  | crash
  | ret (rec : List GoValue) (n : Nat) (err : Option Err)
deriving DecidableEq, Repr

/-- The column loop of `populate`. `jdec` stands for `json.Unmarshal`. JSON
columns assert the raw value is a byte slice (else panic) and write through
index `i`; all other columns write through `c.field`. A `GoStruct` column
records its error but the loop continues (no early return in that case); the
final count is 1 only when no error is pending. -/
def populateLoop (jdec : String → Except String GoValue) (row : List SQLValue) :
    List DBColumn → Nat → List GoValue → Option Err → PopResult
  | [], _, rec, err => .ret rec (if err = none then 1 else 0) err
  | c :: rest, i, rec, err =>
    let v := row.getD i .null
    if c.json then
      match v with
      | .bytes bs =>
        match jdec bs with
        | .error msg => .ret rec 0 (some (.jsonUnmarshal msg))
        | .ok gv => populateLoop jdec row rest (i + 1) (rec.set i gv) err
      | _ => .crash
    else
      match c.goType with
      | .GoInt =>
        match v with
        | .int n => populateLoop jdec row rest (i + 1) (rec.set c.field (.int n)) err
        | _ => .crash
      | .GoFloat =>
        match v with
        | .float b => populateLoop jdec row rest (i + 1) (rec.set c.field (.float b)) err
        | _ => .crash
      | .GoString =>
        match v with
        | .str s => populateLoop jdec row rest (i + 1) (rec.set c.field (.str s)) err
        | _ => .crash
      | .GoBool =>
        match v with
        | .bool b => populateLoop jdec row rest (i + 1) (rec.set c.field (.bool b)) err
        | _ => .crash
      | .GoTime =>
        match v with
        | .str s =>
          match parseIntGo s with
          | none => .ret rec 0 (some (.parseTime s))
          | some n => populateLoop jdec row rest (i + 1) (rec.set c.field (.time n)) err
        | .int n => populateLoop jdec row rest (i + 1) (rec.set c.field (.time n)) err
        | _ => .ret rec 0 (some .invalidTimeType)
      | .GoStruct => populateLoop jdec row rest (i + 1) rec (some .structNotJson)

/-- Go `populate`: scans one row (arity mismatch is the modelled `Scan` failure,
returned with count 0) and materializes it column by column. -/
def populate (jdec : String → Except String GoValue) (md : DBObjectMetadata)
    (row : List SQLValue) (rec : List GoValue) : PopResult :=
  if row.length ≠ md.cols.length then .ret rec 0 (some .scanError)
  else populateLoop jdec row md.cols 0 rec none

/-- Outcome of `GetExisting`. -/
inductive GEResult where
  | crash
  | err (e : Err)
  | ok (rec : List GoValue)
deriving DecidableEq, Repr

/-- Go `DBObjectAddOn.GetExisting`: validates, forces `params.Limit = 1`,
generates the SELECT (recorded as `LastQuery`, the `Option String` component —
`none` when validation failed before any query was generated), then consumes
the collaborator's result rows: no first row means the
`no rows returned matching criteria` error, otherwise the first row is
materialized. Execution-level failures of `db.DB.Query` are the
collaborator's own and out of scope: `rows` is its successful result set. -/
def GetExisting (jdec : String → Except String GoValue) (meta : Option DBObjectMetadata)
    (params : Params) (rows : List (List SQLValue)) (rec : List GoValue) :
    Option String × GEResult :=
  match validateMetadata meta with
  | .error e => (none, .err e)
  | .ok md =>
    let query := mysqlSelect md { params with Limit := 1 }
    match rows with
    | [] => (some query, .err .noRowsMatching)
    | r :: _ =>
      match populate jdec md r rec with
      | .crash => (some query, .crash)
      | .ret rec' _ none => (some query, .ok rec')
      | .ret _ _ (some e) => (some query, .err e)

/-!
## `scanStruct` (the legacy annotation-only scheme, sqlez.go)

`scanStruct` recursively walks a struct value and collects column labels and
data slots. Only the label collection is embedded: the parallel data/pointer
buffers contain exactly one entry per collected label and no claim depends on
their contents. Struct values are trees: a field carries its three tags
(`db`, `dbjson`, `dbskip`; `Option` distinguishes an absent tag from an empty
one, as `Tag.Lookup` does) and a value.
-/

mutual
inductive TValue where
  | str (s : String)
  | intV (i : Int)
  | boolV (b : Bool)
  | mapV (isNil : Bool)
  | structV (fields : TFields)
deriving DecidableEq

inductive TFields where
  | nil
  | cons (f : TField) (rest : TFields)
deriving DecidableEq

inductive TField where
  | mk (dbTag dbjsonTag dbskipTag : Option String) (value : TValue)
deriving DecidableEq
end

/-- Kind test `field.Kind() == reflect.Map`. -/
def isMapV : TValue → Bool
  | .mapV _ => true
  | _ => false

mutual
/-- The zero test `field.Interface() == reflect.Zero(field.Type()).Interface()`.
For a map-kind field Go would panic (maps are not comparable); the flatten
theorem below is stated for `skipEmpty = false`, where this test never runs. -/
def isZeroV : TValue → Bool
  | .str s => s = ""
  | .intV i => i = 0
  | .boolV b => b = false
  | .mapV isNil => isNil
  | .structV fs => isZeroF fs

def isZeroF : TFields → Bool
  | .nil => true
  | .cons f rest => isZeroField f && isZeroF rest

def isZeroField : TField → Bool
  | .mk _ _ _ v => isZeroV v
end

/-- The label a field contributes: the `dbjson` tag value, replaced by the
`db` tag value when the former is empty and the latter is not. -/
def labelOf (db json : Option String) : String :=
  let l := json.getD ""
  let dbl := db.getD ""
  if l = "" ∧ dbl ≠ "" then dbl else l

mutual
/-- The field loop of `scanStruct`, label component: declaration order,
appending each field's contribution; an error from a recursive scan aborts
the loop at once. -/
def scanLoop (skipEmpty : Bool) : TFields → Except String (List String)
  | .nil => .ok []
  | .cons f rest =>
    match scanLabelsField skipEmpty f with
    | .error e => .error e
    | .ok ls1 =>
      match scanLoop skipEmpty rest with
      | .error e => .error e
      | .ok ls2 => .ok (ls1 ++ ls2)

/-- One field of `scanStruct`: a `dbskip`-tagged field contributes nothing; a
struct-kind field without a `dbjson` tag goes through a full recursive
`scanStruct` — inlined here (loop, then the empty-label failure, exactly as
in `scanStructL` below) to keep the recursion structural; a `dbjson`-tagged
field, or a `db`-tagged map, contributes its label (never skipped as empty);
otherwise a `db`-tagged field contributes its label unless skipped as empty. -/
def scanLabelsField (skipEmpty : Bool) : TField → Except String (List String)
  | .mk db json skip v =>
    if skip.isSome then .ok []
    else
      match v, json with
      | .structV fs, none =>
        match scanLoop skipEmpty fs with
        | .error e => .error e
        | .ok ls =>
          if ls.isEmpty then .error "sqlez: no fields labeled db or dbjson" else .ok ls
      | _, _ =>
        if json.isSome ∨ (db.isSome ∧ isMapV v) then .ok [labelOf db json]
        else if db.isSome ∧ ¬(skipEmpty ∧ isZeroV v) then .ok [labelOf db json]
        else .ok []
end

/-- One `scanStruct` invocation (any level, the top-level `firstRun`
included): run the field loop, then fail if it collected no label —
`sqlez: couldnt find any fields labeled ...` (the check is not guarded by
`firstRun`, so an embedded struct with no mapped field aborts the scan). -/
def scanStructL (skipEmpty : Bool) (fs : TFields) : Except String (List String) :=
  match scanLoop skipEmpty fs with
  | .error e => .error e
  | .ok ls => if ls.isEmpty then .error "sqlez: no fields labeled db or dbjson" else .ok ls

/-- Entry point: `scanStruct` as `SelectFrom` calls it: `pointers := true,
skipEmpty := false, firstRun := true` (the read path). -/
def scanStructRun (fs : TFields) : Except String (List String) :=
  scanStructL false fs

mutual
/-- Modelled from the spec: the schema-builder contract of spec section 4.2 —
visit every field in declaration order; a struct-kind field not marked
JSON-encoded is descended into and its sub-fields flattened in place; a
JSON-flagged field is one column; an annotated field is one column; a field
with no recognized annotation is skipped. -/
def specFlattenF : TFields → List String
  | .nil => []
  | .cons f rest => specFlattenField f ++ specFlattenF rest

/-- Modelled from the spec: one field of the spec section 4.2 contract. -/
def specFlattenField : TField → List String
  | .mk db json skip v =>
    match v, json with
    | .structV fs, none => specFlattenF fs
    | _, _ => if json.isSome ∨ db.isSome then [labelOf db json] else []
end

mutual
/-- No field of the tree carries a `dbskip` tag. -/
def noSkipV : TValue → Bool
  | .structV fs => noSkipF fs
  | _ => true

def noSkipF : TFields → Bool
  | .nil => true
  | .cons f rest => noSkipField f && noSkipF rest

def noSkipField : TField → Bool
  | .mk _ _ skip v => skip.isNone && noSkipV v
end

mutual
/-- Every struct-kind field that `scanStruct` descends into (no `dbjson`
tag) flattens to at least one label, recursively: the condition under which
no recursive invocation hits the empty-label failure. -/
def structsNonemptyF : TFields → Bool
  | .nil => true
  | .cons f rest => structsNonemptyField f && structsNonemptyF rest

def structsNonemptyField : TField → Bool
  | .mk db json skip v =>
    match v, json with
    | .structV fs, none => !(specFlattenF fs).isEmpty && structsNonemptyF fs
    | _, _ => true
end

/-!
## Concrete records used as inputs to the theorems
-/

/-- The `Test` struct of cmd/main.go. -/
def testRec : GoStructType :=
  ⟨"Test", [⟨"id,primary,table:tests", .intT⟩, ⟨"name", .stringT⟩]⟩

/-- The `User` struct of cmd/main.go (the embedded untagged `DBObjectAddOn`
field included). -/
def userRec : GoStructType :=
  ⟨"User", [⟨"id,primary,table:users", .intT⟩, ⟨"name", .stringT⟩,
    ⟨"created,created", .timeT⟩, ⟨"updated,updated", .timeT⟩,
    ⟨"", .structT "DBObjectAddOn"⟩]⟩

/-- A record with a name-only annotation next to one with a flag token. -/
def c2Rec : GoStructType :=
  ⟨"C2", [⟨"plain", .stringT⟩, ⟨"other,unique", .stringT⟩]⟩

/-- A record whose annotation has an empty column name and an unrecognized
`foo:bar` key. -/
def c4Rec : GoStructType := ⟨"C4", [⟨",foo:bar", .stringT⟩]⟩

/-- Primary key plus two plain string columns. -/
def c5Rec : GoStructType :=
  ⟨"C5", [⟨"id,primary,table:t", .intT⟩, ⟨"name", .stringT⟩, ⟨"age", .stringT⟩]⟩

/-- Primary key, then an untagged field, then a `created` time field: the
tagged columns have field indices 0 and 2 while their positions in `cols`
are 0 and 1. -/
def c6Rec : GoStructType :=
  ⟨"C6", [⟨"id,primary,table:x", .intT⟩, ⟨"", .intT⟩, ⟨"b,created", .timeT⟩]⟩

/-- Two time fields both flagged `created`. -/
def c8Rec : GoStructType := ⟨"C8", [⟨"a,created", .timeT⟩, ⟨"b,created", .timeT⟩]⟩

/-- Inner struct of the `scanStruct` examples: one `db`-tagged field `c`. -/
def exInner : TFields := .cons ⟨some "c", none, none, .str ""⟩ .nil

/-- Outer struct whose middle field is a struct tagged `dbskip`. -/
def exFields : TFields :=
  .cons ⟨some "a", none, none, .str "x"⟩
    (.cons ⟨none, none, some "1", .structV exInner⟩
      (.cons ⟨some "b", none, none, .intV 3⟩ .nil))

/-- Outer struct whose middle field is an untagged struct. -/
def exFields2 : TFields :=
  .cons ⟨some "a", none, none, .str "x"⟩
    (.cons ⟨none, none, none, .structV exInner⟩
      (.cons ⟨some "b", none, none, .intV 3⟩ .nil))

/-- A trivial stand-in for `json.Unmarshal` used by concrete instantiations. -/
def jd0 : String → Except String GoValue := fun _ => .ok .nilV

/-- A single non-json time column at field 0. -/
def ctimeW : DBColumn := { label := "t", field := 0, goType := .GoTime }

/-- A schema whose only column is the primary key. -/
def mdOnlyPk : DBObjectMetadata :=
  { table := "p", pkey := 0, cols := [{ label := "id", primary := true }] }

/-- A schema with two non-primary columns. -/
def mdTwoCols : DBObjectMetadata :=
  { table := "q", pkey := -1, cols := [{ label := "a" }, { label := "b" }] }

/-- A one-column schema whose column is flagged `updated`. -/
def mdUpd : DBObjectMetadata :=
  { table := "w", pkey := -1,
    cols := [{ label := "u", field := 0, updated := true, goType := .GoTime }] }

/-- A valid empty-column schema for the `GetExisting` witness. -/
def mdValid : DBObjectMetadata := { table := "t", pkey := 0, cols := [] }

/-!
## Theorems
-/

/-- C1: `Init` is meant to cache one schema per record type, but its cache
key `reflect.TypeOf(val)` is the constant type `reflect.Value`: attaching
`Test` and then `User` leaves a single cache entry, and the `User` instance
is bound to the `Test` schema (table `tests`, 2 columns) instead of the
4-column `users` schema its own fields build. -/
theorem init_shares_one_cache_entry_across_types :
    ((do
      let p1 ← (InitAddOn ⟨[]⟩ testRec).toOption
      let p2 ← (InitAddOn p1.1 userRec).toOption
      pure (p1.2.table, p2.2.table, p2.2.cols.length, p2.1.objects.length)) :
      Option (String × String × Nat × Nat)) = some ("tests", "tests", 2, 1) ∧
    (buildMetadata [] userRec).toOption.map (fun m => (m.table, m.cols.length)) =
      some ("users", 4) :=
  ⟨by decide, by decide⟩

/-- C2: the driver type inference runs only inside the per-token loop, so a
field whose annotation is just a column name keeps the zero-valued SQL type
`""` — not the driver mapping `VARCHAR(255)` for its string type — while a
sibling with any extra token is inferred. -/
theorem nameonly_annotation_leaves_sqltype_empty :
    (buildMetadata [] c2Rec).toOption.map (fun m => m.cols.map (·.sqlType)) =
      some ["", "VARCHAR(255)"] ∧ GetDataType .stringT = "VARCHAR(255)" :=
  ⟨by decide, by decide⟩

/-- C8 counterexample: both columns of `c8Rec` carry the `created` flag —
the tag parser guards only `primary` against repetition, not `created` or
`updated`. -/
theorem two_created_columns :
    (buildMetadata [] c8Rec).toOption.map
      (fun m => ((m.cols.filter (·.created)).length, (m.cols.filter (·.primary)).length)) =
      some (2, 0) :=
  by decide

/-- C3 counterexample: the middle field of `exFields` is a struct-kind field
with no JSON marking, yet `scanStruct` does not descend into it — it carries
a `dbskip` tag, so its sub-field `c` is absent from the labels, where the
flattening contract would put it between `a` and `b`. -/
theorem skiptagged_struct_not_descended :
    scanStructRun exFields = .ok ["a", "b"] ∧
    specFlattenF exFields = ["a", "c", "b"] ∧
    (["a", "b"] : List String) ≠ ["a", "c", "b"] :=
  ⟨by decide, by decide, by decide⟩

/-- C4 counterexample: the annotation `,foo:bar` — empty column name and an
unrecognized key — parses successfully: attach does not fail, the empty first
token becomes the column label, and `foo:bar` leaves no trace on the
descriptor (no `MalformedTag` error exists in the code). -/
theorem empty_name_unknown_key_accepted :
    (buildMetadata [] c4Rec).toOption.map
      (fun m => m.cols.map (fun c => (c.label, c.defV, c.colProp, c.sqlType))) =
      some [("", "", "", "VARCHAR(255)")] :=
  by decide

/-- C5 counterexample: on `c5Rec` with only `name` non-zero (`age` holds the
string zero value `""`), `MySQLDriver.Update` — the query `SaveExisting`
executes — still lists `age` in the SET clause: the generated query is not
the one-column UPDATE the claim predicts, because this path has no
`SkipEmpty` handling at all. -/
theorem update_includes_zero_valued_column :
    (buildMetadata [] c5Rec).toOption.map
      (fun m => mysqlUpdate m [.int 1, .str "x", .str ""] 100) =
      some ([.int 1, .str "x", .str ""],
            "UPDATE t SET name= ?, age= ? WHERE id = ?",
            [.str "x", .str "", .int 1]) ∧
    ("UPDATE t SET name= ?, age= ? WHERE id = ?" : String) ≠
      "UPDATE t SET name= ? WHERE id = ?" :=
  ⟨by decide, by decide⟩

/-- C6: `InsertIgnore` addresses the record by the column-list index, not by
the recorded field index. On `c6Rec` the `created` column is field 2 but
sits at position 1 of the non-skipped iteration, so the stamp lands on the
untagged field 1 while the `created` field keeps its old value `.time 5`
(in Go the misdirected `reflect.Set` of a `time.Time` into an `int` field
panics). The primary key is excluded and the `created` column's parameter is
Unix-encoded, but from the wrongly-stamped slot. The schema itself validates,
so `SaveNew` reaches this code. -/
theorem insertignore_stamps_cols_index_not_field_index :
    (buildMetadata [] c6Rec).toOption.map (fun m => m.cols.map (·.field)) = some [0, 2] ∧
    (buildMetadata [] c6Rec).toOption.map (fun m => (validateMetadata (some m)).isOk) =
      some true ∧
    (buildMetadata [] c6Rec).toOption.map
      (fun m => mysqlInsertIgnore m [.int 9, .int 7, .time 5] false 100) =
      some (some ("INSERT INTO x (b) VALUES (?)",
                  [.int 100],
                  [.int 9, .time 100, .time 5])) :=
  ⟨by decide, by decide, by decide⟩

/-! ### Helper lemmas about list updates -/

theorem set_getD_ne (l : List GoValue) (i k : Nat) (v d : GoValue) (h : i ≠ k) :
    (l.set i v).getD k d = l.getD k d := by
  simp [List.getD_eq_getElem?_getD, List.getElem?_set_ne h]

theorem set_getD_lt (l : List GoValue) (i : Nat) (v d : GoValue) (h : i < l.length) :
    (l.set i v).getD i d = v := by
  simp [List.getD_eq_getElem?_getD, List.getElem?_set_eq_of_lt v h]

/-! ### The Update loop: emitted columns and stamping -/

/-- The SET column labels of the Update loop are the non-primary columns'
labels, in schema order, whatever the record holds. -/
theorem updLoop_cols (now : Int) :
    ∀ (cols : List DBColumn) (i : Nat) (rec : List GoValue) (w : String) (wv : GoValue)
      (cs : List String) (vs : List GoValue),
      (updLoop now cols i rec w wv cs vs).2.2.2.1 =
        cs ++ (cols.filter (fun c => !c.primary)).map (·.label) := by
  intro cols
  induction cols with
  | nil => intro i rec w wv cs vs; simp [updLoop]
  | cons c rest ih =>
    intro i rec w wv cs vs
    by_cases hp : c.primary
    · simp [updLoop, hp, ih]
    · simp [updLoop, hp, ih]

/-- The Update loop leaves the record's length unchanged. -/
theorem updLoop_rec_length (now : Int) :
    ∀ (cols : List DBColumn) (i : Nat) (rec : List GoValue) (w : String) (wv : GoValue)
      (cs : List String) (vs : List GoValue),
      ((updLoop now cols i rec w wv cs vs).1).length = rec.length := by
  intro cols
  induction cols with
  | nil => intro i rec w wv cs vs; simp [updLoop]
  | cons c rest ih =>
    intro i rec w wv cs vs
    by_cases hp : c.primary
    · simp [updLoop, hp, ih]
    · by_cases hu : c.updated <;> simp [updLoop, hp, hu, ih]

/-- The Update loop never touches record slots below its running index. -/
theorem updLoop_rec_lower (now : Int) :
    ∀ (cols : List DBColumn) (i : Nat) (rec : List GoValue) (w : String) (wv : GoValue)
      (cs : List String) (vs : List GoValue) (k : Nat), k < i →
      ((updLoop now cols i rec w wv cs vs).1).getD k .nilV = rec.getD k .nilV := by
  intro cols
  induction cols with
  | nil => intro i rec w wv cs vs k hk; simp [updLoop]
  | cons c rest ih =>
    intro i rec w wv cs vs k hk
    by_cases hp : c.primary
    · simp only [updLoop, hp, if_pos]
      exact ih (i + 1) rec c.label (rec.getD i .nilV) cs vs k (by omega)
    · by_cases hu : c.updated
      · simp only [updLoop, hp, hu, if_neg, if_pos, Bool.false_eq_true, not_false_iff]
        rw [ih _ _ _ _ _ _ k (by omega)]
        exact set_getD_ne rec i k _ _ (by omega)
      · simp only [updLoop, hp, hu, Bool.false_eq_true, if_neg, not_false_iff]
        exact ih _ _ _ _ _ _ k (by omega)

/-- Every non-primary `updated` column re-stamps its loop-index slot of the
record with the current time. -/
theorem updLoop_stamp (now : Int) :
    ∀ (cols : List DBColumn) (i : Nat) (rec : List GoValue) (w : String) (wv : GoValue)
      (cs : List String) (vs : List GoValue),
      i + cols.length ≤ rec.length →
      ∀ j (hj : j < cols.length),
        (cols.get ⟨j, hj⟩).updated = true → (cols.get ⟨j, hj⟩).primary = false →
        ((updLoop now cols i rec w wv cs vs).1).getD (i + j) .nilV = .time now := by
  intro cols
  induction cols with
  | nil => intro i rec w wv cs vs hlen j hj; exact absurd hj (by simp)
  | cons c rest ih =>
    intro i rec w wv cs vs hlen j hj hu hp
    cases j with
    | zero =>
      have hu' : c.updated = true := hu
      have hp' : c.primary = false := hp
      simp only [updLoop, hp', Bool.false_eq_true, if_neg, not_false_iff, hu', if_pos]
      rw [updLoop_rec_lower now rest (i + 1) _ _ _ _ _ (i + 0) (by omega)]
      have : i + 0 = i := by omega
      rw [this]
      exact set_getD_lt rec i _ _ (by simp at hlen; omega)
    | succ j' =>
      have hu' : (rest.get ⟨j', by simpa using hj⟩).updated = true := hu
      have hp' : (rest.get ⟨j', by simpa using hj⟩).primary = false := hp
      have harith : i + (j' + 1) = (i + 1) + j' := by omega
      by_cases hcp : c.primary
      · simp only [updLoop, hcp, if_pos]
        rw [harith]
        exact ih (i + 1) rec _ _ cs vs (by simp at hlen; omega) j' (by simpa using hj) hu' hp'
      · by_cases hcu : c.updated
        · simp only [updLoop, hcp, hcu, Bool.false_eq_true, if_neg, not_false_iff, if_pos]
          rw [harith]
          exact ih (i + 1) _ _ _ _ _ (by simp at hlen; simp [List.length_set]; omega) j'
            (by simpa using hj) hu' hp'
        · simp only [updLoop, hcp, hcu, Bool.false_eq_true, if_neg, not_false_iff]
          rw [harith]
          exact ih (i + 1) rec _ _ _ _ (by simp at hlen; omega) j' (by simpa using hj) hu' hp'

/-- C5 (amended): `MySQLDriver.Update` — the statement `SaveExisting`
executes — lists every non-primary column in the SET clause, in schema order,
regardless of the record's values (no `SkipEmpty` handling exists on this
path: the interface-based `Params` has no such field and `SaveExisting` takes
no parameters), and re-stamps every non-primary `updated` column's slot with
the current time. -/
theorem update_emits_every_nonprimary_column (md : DBObjectMetadata)
    (rec : List GoValue) (now : Int) (hlen : md.cols.length ≤ rec.length) :
    (updResult md rec now).2.2.2.1 =
      (md.cols.filter (fun c => !c.primary)).map (·.label) ∧
    ∀ j (hj : j < md.cols.length),
      (md.cols.get ⟨j, hj⟩).updated = true → (md.cols.get ⟨j, hj⟩).primary = false →
      ((updResult md rec now).1).getD j .nilV = .time now := by
  constructor
  · simpa using updLoop_cols now md.cols 0 rec "" .nilV [] []
  · intro j hj hu hp
    have := updLoop_stamp now md.cols 0 rec "" .nilV [] [] (by omega) j hj hu hp
    simpa using this

/-- Witness for C5's amended theorem at a concrete schema and record. -/
theorem update_emits_every_nonprimary_column_witness :
    (updResult mdUpd [.int 0] 100).2.2.2.1 = ["u"] ∧
    ((updResult mdUpd [.int 0] 100).1).getD 0 .nilV = .time 100 :=
  ⟨(update_emits_every_nonprimary_column mdUpd [.int 0] 100 (by decide)).1,
   (update_emits_every_nonprimary_column mdUpd [.int 0] 100 (by decide)).2 0
     (by decide) (by decide) (by decide)⟩

/-! ### The InsertIgnore loop: emitted columns and placeholders -/

/-- The INSERT column labels are the non-primary columns' labels in schema
order. -/
theorem insLoop_cols (now : Int) :
    ∀ (cols : List DBColumn) (i : Nat) (rec : List GoValue)
      (cs : List String) (vs : List GoValue),
      (insLoop now cols i rec cs vs).2.1 =
        cs ++ (cols.filter (fun c => !c.primary)).map (·.label) := by
  intro cols
  induction cols with
  | nil => intro i rec cs vs; simp [insLoop]
  | cons c rest ih =>
    intro i rec cs vs
    by_cases hp : c.primary
    · simp [insLoop, hp, ih]
    · simp [insLoop, hp, ih]

theorem countQ_append (a b : String) : countQ (a ++ b) = countQ a + countQ b := by
  simp [countQ, String.toList, String.data_append, List.count_append]

theorem countQ_repeatAux (k : Nat) : countQ (repeatAux k "?, ") = k := by
  induction k with
  | zero => decide
  | succ n ih =>
    have h1 : countQ "?, " = 1 := by decide
    simp [repeatAux, countQ_append, ih, h1]
    omega

theorem insertPlaceholders_none (n : Nat) : insertPlaceholders n = none ↔ n = 0 := by
  rcases n with _ | m
  · simp [insertPlaceholders, stringsRepeat]
  · have hc : ¬(((m + 1 : Nat) : Int) - 1 < 0) := by push_cast; omega
    simp [insertPlaceholders, stringsRepeat, hc]

theorem countQ_insertPlaceholders (n : Nat) (s : String)
    (h : insertPlaceholders n = some s) : countQ s = n := by
  rcases n with _ | m
  · simp [insertPlaceholders, stringsRepeat] at h
  · have hc : ¬(((m + 1 : Nat) : Int) - 1 < 0) := by push_cast; omega
    simp only [insertPlaceholders, stringsRepeat, if_neg hc, Option.map_some] at h
    have ht : (((m + 1 : Nat) : Int) - 1).toNat = m := by push_cast; omega
    have h1 : countQ "?" = 1 := by decide
    rw [← Option.some_inj.mp h, countQ_append, ht, countQ_repeatAux, h1]

/-- C10: the VALUES placeholder construction panics exactly on a schema with
no non-primary column (`strings.Repeat` with count `-1`); otherwise the
placeholder list carries exactly one `?` per emitted column. -/
theorem insertignore_placeholder_totality (md : DBObjectMetadata) (rec : List GoValue)
    (ig : Bool) (now : Int) :
    (mysqlInsertIgnore md rec ig now = none ↔
      md.cols.filter (fun c => !c.primary) = []) ∧
    (∀ s, insertPlaceholders ((md.cols.filter (fun c => !c.primary)).length) = some s →
      countQ s = (md.cols.filter (fun c => !c.primary)).length) := by
  have hcols : (insLoop now md.cols 0 rec [] []).2.1 =
      (md.cols.filter (fun c => !c.primary)).map (·.label) := by
    simpa using insLoop_cols now md.cols 0 rec [] []
  constructor
  · cases hph : insertPlaceholders ((insLoop now md.cols 0 rec [] []).2.1).length with
    | none =>
      have h0 : ((insLoop now md.cols 0 rec [] []).2.1).length = 0 :=
        (insertPlaceholders_none _).mp hph
      rw [hcols] at h0
      simp only [mysqlInsertIgnore, hph]
      simp only [List.length_map, List.length_eq_zero] at h0
      simp [h0]
    | some ph =>
      have h0 : ¬(((insLoop now md.cols 0 rec [] []).2.1).length = 0) := by
        intro hz
        rw [← insertPlaceholders_none] at hz
        rw [hz] at hph
        cases hph
      rw [hcols] at h0
      simp only [List.length_map, List.length_eq_zero] at h0
      simp only [mysqlInsertIgnore, hph]
      simp [h0]
  · intro s h
    exact countQ_insertPlaceholders _ s h

/-- Witness for C10 at a primary-key-only schema (panic case) and a
two-column schema (placeholder-count case). -/
theorem insertignore_placeholder_totality_witness :
    mysqlInsertIgnore mdOnlyPk [.int 1] false 0 = none ∧ countQ "?, ?" = 2 :=
  ⟨(insertignore_placeholder_totality mdOnlyPk [.int 1] false 0).1.mpr (by decide),
   (insertignore_placeholder_totality mdTwoCols [.int 0, .int 0] false 0).2 "?, ?"
     (by decide)⟩

/-! ### `populate`: the materialized-row count and the error repertoire -/

/-- The count returned by the `populate` loop is 1 exactly when no error is
pending at the end (`if err == nil { n = 1 }`); every early return carries 0. -/
theorem populateLoop_count (jdec : String → Except String GoValue) (row : List SQLValue) :
    ∀ (cols : List DBColumn) (i : Nat) (rec : List GoValue) (err : Option Err)
      (r : List GoValue) (n : Nat) (e? : Option Err),
      populateLoop jdec row cols i rec err = .ret r n e? →
      n = if e? = none then 1 else 0 := by
  intro cols
  induction cols with
  | nil =>
    intro i rec err r n e? h
    unfold populateLoop at h
    cases h
    rfl
  | cons c rest ih =>
    intro i rec err r n e? h
    simp only [populateLoop] at h
    repeat' split at h
    all_goals try cases h
    all_goals try rfl
    all_goals exact ih _ _ _ _ _ _ h

/-- The `populate` loop never invents the façade-level
`no rows returned matching criteria` error. -/
theorem populateLoop_err (jdec : String → Except String GoValue) (row : List SQLValue) :
    ∀ (cols : List DBColumn) (i : Nat) (rec : List GoValue) (err : Option Err)
      (r : List GoValue) (n : Nat) (e : Err),
      err ≠ some Err.noRowsMatching →
      populateLoop jdec row cols i rec err = .ret r n (some e) → e ≠ .noRowsMatching := by
  intro cols
  induction cols with
  | nil =>
    intro i rec err r n e hne h
    unfold populateLoop at h
    cases h
    intro heq
    exact hne (by rw [heq])
  | cons c rest ih =>
    intro i rec err r n e hne h
    simp only [populateLoop] at h
    repeat' split at h
    all_goals try cases h
    all_goals try (exact ih _ _ _ _ _ _ hne h)
    all_goals try (exact ih _ _ _ _ _ _ (by simp) h)
    all_goals simp

/-- The function `populate` never returns the `no rows returned matching criteria` error. -/
theorem populate_err (jdec : String → Except String GoValue) (md : DBObjectMetadata)
    (row : List SQLValue) (rec : List GoValue) (r : List GoValue) (n : Nat) (e : Err)
    (h : populate jdec md row rec = .ret r n (some e)) : e ≠ .noRowsMatching := by
  unfold populate at h
  split at h
  · cases h; simp
  · exact populateLoop_err jdec row md.cols 0 rec none r n e (by simp) h

/-- C9: materializing a non-JSON time column decodes a raw integer or numeric
string as Unix-epoch seconds into the column's field, and any other raw value
is an error; in general, whenever `populate` returns an error, its
materialized-row count is 0. -/
theorem populate_time_column_decoding :
    (∀ (jdec : String → Except String GoValue) (md : DBObjectMetadata)
       (row : List SQLValue) (rec rec' : List GoValue) (n : Nat) (e : Err),
       populate jdec md row rec = .ret rec' n (some e) → n = 0) ∧
    (∀ (jdec : String → Except String GoValue) (c : DBColumn) (v : SQLValue)
       (rec : List GoValue), c.json = false → c.goType = .GoTime →
       populate jdec { cols := [c] } [v] rec =
         match v with
         | .int k => .ret (rec.set c.field (.time k)) 1 none
         | .str s =>
           match parseIntGo s with
           | some k => .ret (rec.set c.field (.time k)) 1 none
           | none => .ret rec 0 (some (.parseTime s))
         | _ => .ret rec 0 (some .invalidTimeType)) := by
  constructor
  · intro jdec md row rec rec' n e h
    unfold populate at h
    split at h
    · cases h; rfl
    · have := populateLoop_count jdec row md.cols 0 rec none rec' n (some e) h
      simpa using this
  · intro jdec c v rec hj hg
    cases v with
    | str s =>
      cases hp : parseIntGo s with
      | none => simp [populate, populateLoop, hj, hg, hp]
      | some k => simp [populate, populateLoop, hj, hg, hp]
    | int k => simp [populate, populateLoop, hj, hg]
    | float b => simp [populate, populateLoop, hj, hg]
    | bool b => simp [populate, populateLoop, hj, hg]
    | bytes b => simp [populate, populateLoop, hj, hg]
    | null => simp [populate, populateLoop, hj, hg]

/-- Witness for C9 at a concrete time column and numeric-string raw value. -/
theorem populate_time_column_decoding_witness :
    populate jd0 { cols := [ctimeW] } [.str "123"] [.nilV] = .ret [.time 123] 1 none :=
  (populate_time_column_decoding.2 jd0 ctimeW (.str "123") [.nilV] rfl rfl).trans
    (by decide)

/-! ### `GetExisting` -/

/-- C7: `GetExisting` overwrites the caller's `Limit` with 1 before
generating the SELECT, so the query always ends in ` LIMIT 1` whatever limit
was passed; and its result is the `no rows returned matching criteria` error
exactly when the (successfully executed) query produced zero rows — a
nonempty result set yields either success or a different (materialization)
outcome. -/
theorem getexisting_limit_one_and_norow_iff
    (jdec : String → Except String GoValue) (meta : Option DBObjectMetadata)
    (params : Params) (rows : List (List SQLValue)) (rec : List GoValue)
    (md' : DBObjectMetadata) (hv : validateMetadata meta = .ok md') :
    (GetExisting jdec meta params rows rec).1 =
      some ("SELECT * FROM " ++ md'.table ++
        (if params.Where ≠ "" then " WHERE " ++ params.Where else "") ++
        (if params.OrderBy ≠ "" then " ORDER BY " ++ params.OrderBy else "") ++
        " LIMIT 1") ∧
    ((GetExisting jdec meta params rows rec).2 = .err .noRowsMatching ↔ rows = []) := by
  have hq : mysqlSelect md' { params with Limit := 1 } =
      "SELECT * FROM " ++ md'.table ++
        (if params.Where ≠ "" then " WHERE " ++ params.Where else "") ++
        (if params.OrderBy ≠ "" then " ORDER BY " ++ params.OrderBy else "") ++
        " LIMIT 1" := by
    have hl : (" LIMIT " ++ toString (1 : Int)) = " LIMIT 1" := by decide
    simp [mysqlSelect, hl]
  constructor
  · cases rows with
    | nil => simp [GetExisting, hv, hq]
    | cons r rest =>
      cases hpop : populate jdec md' r rec with
      | crash => simp [GetExisting, hv, hq, hpop]
      | ret rec' n e? => cases e? <;> simp [GetExisting, hv, hq, hpop]
  · cases rows with
    | nil => simp [GetExisting, hv]
    | cons r rest =>
      cases hpop : populate jdec md' r rec with
      | crash => simp [GetExisting, hv, hpop]
      | ret rec' n e? =>
        cases e? with
        | none => simp [GetExisting, hv, hpop]
        | some e =>
          have hne := populate_err jdec md' r rec rec' n e hpop
          simp [GetExisting, hv, hpop, hne]

/-- Witness for C7 at a valid schema, a caller limit of 42 and an empty
result set. -/
theorem getexisting_limit_one_and_norow_iff_witness :
    (GetExisting jd0 (some mdValid) { Where := "w", Limit := 42 } [] []).2 =
      .err .noRowsMatching ∧
    (GetExisting jd0 (some mdValid) { Where := "w", Limit := 42 } [] []).1 =
      some ("SELECT * FROM " ++ mdValid.table ++
        (if ("w" : String) ≠ "" then " WHERE " ++ "w" else "") ++
        (if ("" : String) ≠ "" then " ORDER BY " ++ "" else "") ++ " LIMIT 1") :=
  ⟨(getexisting_limit_one_and_norow_iff jd0 (some mdValid)
      { Where := "w", Limit := 42 } [] [] { mdValid with validated := true }
      (by decide)).2.mpr rfl,
   (getexisting_limit_one_and_norow_iff jd0 (some mdValid)
      { Where := "w", Limit := 42 } [] [] { mdValid with validated := true }
      (by decide)).1⟩

/-! ### The `primary` guard of the tag parser -/

/-- One token leaves the column list untouched, and changes the
primary-status only by claiming a still-unclaimed primary slot. -/
theorem dispatchToken_primary_inv (objects : ObjMap) (fld : GoField) (i : Nat)
    (v : String) (c : DBColumn) (md : DBObjectMetadata) (c' : DBColumn)
    (md' : DBObjectMetadata) (h : dispatchToken objects fld i v c md = .ok (c', md')) :
    md'.cols = md.cols ∧
    ((c'.primary = c.primary ∧ md'.pkey = md.pkey) ∨
     (md.pkey < 0 ∧ 0 ≤ md'.pkey ∧ c'.primary = true)) := by
  simp only [dispatchToken] at h
  repeat' split at h
  all_goals try cases h
  all_goals try exact ⟨rfl, Or.inl ⟨rfl, rfl⟩⟩
  all_goals
    exact ⟨rfl, Or.inr ⟨(‹v = "primary" ∧ md.pkey < 0›).2, Int.natCast_nonneg i, rfl⟩⟩

/-- The token loop preserves the same primary invariant. -/
theorem procTokens_primary_inv (objects : ObjMap) (flds : List GoField) (fld : GoField)
    (i : Nat) :
    ∀ (ts : List String) (c : DBColumn) (md : DBObjectMetadata) (c' : DBColumn)
      (md' : DBObjectMetadata),
      procTokens objects flds fld i ts c md = .ok (c', md') →
      md'.cols = md.cols ∧
      ((c'.primary = c.primary ∧ md'.pkey = md.pkey) ∨
       (md.pkey < 0 ∧ 0 ≤ md'.pkey ∧ c'.primary = true)) := by
  intro ts
  induction ts with
  | nil =>
    intro c md c' md' h
    unfold procTokens at h
    cases h
    simp
  | cons v rest ih =>
    intro c md c' md' h
    simp only [procTokens] at h
    cases hd : dispatchToken objects fld i v c md with
    | error e => rw [hd] at h; cases h
    | ok p =>
      obtain ⟨c1, md1⟩ := p
      rw [hd] at h
      dsimp only at h
      have h1 := dispatchToken_primary_inv objects fld i v c md c1 md1 hd
      repeat' split at h
      all_goals try cases h
      all_goals
        obtain ⟨hc1, hinv1⟩ := h1
        obtain ⟨hc2, hinv2⟩ := ih _ _ _ _ h
        refine ⟨by rw [hc2, hc1], ?_⟩
        rcases hinv1 with ⟨ha, hb⟩ | ⟨ha, hb, hc⟩ <;>
          rcases hinv2 with ⟨hd', he⟩ | ⟨hd', he, hf⟩ <;>
          simp_all

/-- Appending the finished column keeps the primary count at most one. -/
theorem buildLoop_primary_count (objects : ObjMap) (flds : List GoField) :
    ∀ (fs : List GoField) (i : Nat) (md : DBObjectMetadata) (md' : DBObjectMetadata),
      (md.cols.filter (·.primary)).length ≤ 1 →
      (md.pkey < 0 → (md.cols.filter (·.primary)).length = 0) →
      buildLoop objects flds i fs md = .ok md' →
      (md'.cols.filter (·.primary)).length ≤ 1 := by
  intro fs
  induction fs with
  | nil =>
    intro i md md' h1 h2 h
    unfold buildLoop at h
    cases h
    exact h1
  | cons f rest ih =>
    intro i md md' h1 h2 h
    simp only [buildLoop] at h
    split at h
    · exact ih _ _ _ h1 h2 h
    · cases hp : procTokens objects flds f i (goSplit f.tag ',').tail
        { label := (goSplit f.tag ',').headD "" } md with
      | error e => rw [hp] at h; cases h
      | ok p =>
        obtain ⟨c1, md1⟩ := p
        rw [hp] at h
        dsimp only at h
        obtain ⟨hcols, hinv⟩ :=
          procTokens_primary_inv objects flds f i _ _ _ c1 md1 hp
        have hcount : ((md1.cols ++ [{ c1 with field := i }]).filter
              (fun x : DBColumn => x.primary)).length =
            (md.cols.filter (fun x => x.primary)).length + (if c1.primary then 1 else 0) := by
          rw [List.filter_append, List.length_append, hcols]
          by_cases hb : c1.primary <;> simp [List.filter_singleton, hb]
        rcases hinv with ⟨ha, hb⟩ | ⟨ha, hb, hc⟩
        · have hfalse : c1.primary = false := ha
          have hb' : md1.pkey = md.pkey := hb
          refine ih _ _ _ ?_ ?_ h
          · show ((md1.cols ++ [{ c1 with field := i }]).filter
                (fun x : DBColumn => x.primary)).length ≤ 1
            rw [hcount, hfalse]
            simpa using h1
          · intro hlt
            have hlt0 : md1.pkey < 0 := hlt
            show ((md1.cols ++ [{ c1 with field := i }]).filter
                (fun x : DBColumn => x.primary)).length = 0
            rw [hcount, hfalse, h2 (hb' ▸ hlt0)]
            simp
        · have hc' : c1.primary = true := hc
          have hb0 : (0 : Int) ≤ md1.pkey := hb
          have h0 : (md.cols.filter (·.primary)).length = 0 := h2 ha
          refine ih _ _ _ ?_ ?_ h
          · show ((md1.cols ++ [{ c1 with field := i }]).filter
                (fun x : DBColumn => x.primary)).length ≤ 1
            rw [hcount, hc', h0]
            simp
          · intro hlt
            have hlt0 : md1.pkey < 0 := hlt
            exact absurd hb0 (by omega)

/-- C8 (amended): every schema the tag parser builds has at most one column
flagged `primary` — the `md.pkey < 0` guard admits only the first claim —
while `created` and `updated` flags are not deduplicated (see the
counterexample). -/
theorem built_schema_at_most_one_primary (objects : ObjMap) (rec : GoStructType)
    (md : DBObjectMetadata) (h : buildMetadata objects rec = .ok md) :
    (md.cols.filter (·.primary)).length ≤ 1 :=
  buildLoop_primary_count objects rec.fields rec.fields 0 _ md (by simp) (by simp) h

/-- Witness for C8's amended theorem on the `Test` schema. -/
theorem built_schema_at_most_one_primary_witness :
    (((buildMetadata [] testRec).toOption.getD {}).cols.filter (·.primary)).length ≤ 1 :=
  built_schema_at_most_one_primary [] testRec _ (by decide)

/-! ### `scanStruct` flattening -/

mutual
/-- On skip-tag-free trees whose descended structs all flatten nonempty, the
`scanStruct` field loop (read path, `skipEmpty = false`) succeeds with
exactly the spec's depth-first flattening. -/
theorem scanLoop_eq_spec (fs : TFields) (h : noSkipF fs = true)
    (hg : structsNonemptyF fs = true) :
    scanLoop false fs = .ok (specFlattenF fs) := by
  cases fs with
  | nil => rfl
  | cons f rest =>
    have h' := h
    simp only [noSkipF, Bool.and_eq_true] at h'
    have hg' := hg
    simp only [structsNonemptyF, Bool.and_eq_true] at hg'
    rw [scanLoop, scanLabelsField_eq_spec f h'.1 hg'.1,
      scanLoop_eq_spec rest h'.2 hg'.2]
    rfl

/-- One field of the previous theorem. -/
theorem scanLabelsField_eq_spec (f : TField) (h : noSkipField f = true)
    (hg : structsNonemptyField f = true) :
    scanLabelsField false f = .ok (specFlattenField f) := by
  cases f with
  | mk db json skip v =>
    have h' := h
    simp only [noSkipField, Bool.and_eq_true, Option.isNone_iff_eq_none] at h'
    cases v with
    | structV fs =>
      cases json with
      | none =>
        have hsub : noSkipF fs = true := by
          have := h'.2
          simpa [noSkipV] using this
        have hg' := hg
        simp only [structsNonemptyField, Bool.and_eq_true] at hg'
        have hne : (specFlattenF fs).isEmpty = false := by
          simpa using hg'.1
        simp only [scanLabelsField, specFlattenField, h'.1, Option.isSome_none,
          Bool.false_eq_true, if_false]
        rw [scanLoop_eq_spec fs hsub hg'.2]
        simp [hne]
      | some j => simp [scanLabelsField, specFlattenField, h'.1]
    | str s => cases json <;> cases db <;> simp [scanLabelsField, specFlattenField, h'.1, isMapV]
    | intV k => cases json <;> cases db <;> simp [scanLabelsField, specFlattenField, h'.1, isMapV]
    | boolV b => cases json <;> cases db <;> simp [scanLabelsField, specFlattenField, h'.1, isMapV]
    | mapV bn => cases json <;> cases db <;> simp [scanLabelsField, specFlattenField, h'.1, isMapV]
end

/-- C3 (amended): for every record tree with no `dbskip`-tagged field, in
which every descended structure carries at least one mapped field (an
embedded struct with none aborts the scan with the empty-label error) and
which itself flattens nonempty, `scanStruct` descends into every struct-kind
field not marked JSON-encoded and flattens its sub-fields into the same
label list, in declaration order, depth-first — exactly the spec's
flattening. -/
theorem scanstruct_flattens_no_skip (fs : TFields) (h : noSkipF fs = true)
    (hg : structsNonemptyF fs = true) (h2 : specFlattenF fs ≠ []) :
    scanStructRun fs = .ok (specFlattenF fs) := by
  have hne : (specFlattenF fs).isEmpty = false := by
    cases hl : specFlattenF fs with
    | nil => exact absurd hl h2
    | cons a t => rfl
  unfold scanStructRun
  rw [scanStructL, scanLoop_eq_spec fs h hg]
  simp [hne]

/-- Witness for C3's amended theorem on `exFields2` (untagged inner struct,
flattened in place). -/
theorem scanstruct_flattens_no_skip_witness :
    noSkipF exFields2 = true ∧ structsNonemptyF exFields2 = true ∧
    specFlattenF exFields2 = ["a", "c", "b"] ∧
    scanStructRun exFields2 = .ok (specFlattenF exFields2) :=
  ⟨by decide, by decide, by decide,
   scanstruct_flattens_no_skip exFields2 (by decide) (by decide) (by decide)⟩

/-! ### Tag parsing never fails on empty names or unknown keys -/

/-- A single token's dispatch never changes the column label. -/
theorem dispatchToken_label (objects : ObjMap) (fld : GoField) (i : Nat) (v : String)
    (c : DBColumn) (md : DBObjectMetadata) (r : DBColumn × DBObjectMetadata)
    (h : dispatchToken objects fld i v c md = .ok r) : r.1.label = c.label := by
  simp only [dispatchToken] at h
  repeat' split at h
  all_goals try cases h
  all_goals rfl

/-- C4 (amended): the parser has no `MalformedTag` failure — a `key:value`
token with an unrecognized key is dispatched as a no-op (no error, no change
to the descriptor or metadata), and the column label is always the
annotation's first comma-separated token, the empty string included: the
token loop never alters it. -/
theorem tag_parser_no_malformed_tag :
    (∀ (objects : ObjMap) (fld : GoField) (i : Nat) (t : String) (c : DBColumn)
       (md : DBObjectMetadata),
       (goSplit t ':').length > 1 →
       (goSplit t ':').headD "" ∉ (["default", "table", "type", "refresh"] : List String) →
       dispatchToken objects fld i t c md = .ok (c, md)) ∧
    (∀ (objects : ObjMap) (flds : List GoField) (fld : GoField) (i : Nat)
       (ts : List String) (c : DBColumn) (md : DBObjectMetadata)
       (r : DBColumn × DBObjectMetadata),
       procTokens objects flds fld i ts c md = .ok r → r.1.label = c.label) := by
  constructor
  · intro objects fld i t c md h1 h2
    simp only [dispatchToken, if_pos h1]
    split
    all_goals simp_all
  · intro objects flds fld i ts
    induction ts with
    | nil =>
      intro c md r h
      unfold procTokens at h
      cases h
      rfl
    | cons v rest ih =>
      intro c md r h
      simp only [procTokens] at h
      cases hd : dispatchToken objects fld i v c md with
      | error e => rw [hd] at h; cases h
      | ok p =>
        obtain ⟨c1, md1⟩ := p
        rw [hd] at h
        dsimp only at h
        have hl1 : c1.label = c.label := dispatchToken_label objects fld i v c md _ hd
        repeat' split at h
        all_goals try cases h
        all_goals rw [← hl1]
        all_goals (have hr := ih _ _ _ h; exact hr)

/-- Witness for C4's amended theorem: the unknown key `foo:bar` is a no-op
and the empty label survives the token loop. -/
theorem tag_parser_no_malformed_tag_witness :
    dispatchToken [] ⟨"x", .stringT⟩ 0 "foo:bar" {} {} = .ok ({}, {}) ∧
    (({ label := "", sqlType := "VARCHAR(255)" } : DBColumn)).label =
      ({ label := "" } : DBColumn).label :=
  ⟨tag_parser_no_malformed_tag.1 [] ⟨"x", .stringT⟩ 0 "foo:bar" {} {}
     (by decide) (by decide),
   tag_parser_no_malformed_tag.2 [] [] ⟨",foo:bar", .stringT⟩ 0 ["foo:bar"]
     { label := "" } {} ({ label := "", sqlType := "VARCHAR(255)" }, {}) (by decide)⟩

end Sqlez
